import Mathlib

/-!
Shallow embedding of the provider-orchestration core of the
AI-UI-Ethics-Evaluations repository:

* `ui_assessment.py` — `UIAssessmentSystem`: image encoding, provider
  adapters, response parsing (`process_interface`), the assessment loop
  (`run_assessment`) and the CSV recorder (`save_results_to_csv`);
* `VLM-UI-Evaluations/run_multiple_assessments.py` — the sweep
  orchestrator (`run_multiple_assessments`, `estimate_tokens`, usage
  ledger, `main`).

Python strings are modelled as `List Char`, JSON values as an inductive
`Json` with objects as insertion-ordered association lists, machine
floats that are only ever formatted (temperatures) by their formatted
`String`, and library calls (`json.loads`, the provider SDKs, the wall
clock) as explicit function parameters.  All definitions are executable.
-/

namespace UIAssess

/-- The two brace characters, kept as named constants. -/
def lbrace : Char := Char.ofNat 123

/-- Closing brace character. -/
def rbrace : Char := Char.ofNat 125

/-- JSON values as produced by `json.loads`: objects are
insertion-ordered association lists (Python `dict`s preserve insertion
order). -/
inductive Json where
  | str : String → Json
  | num : Int → Json
  | null : Json
  | arr : List Json → Json
  | obj : List (String × Json) → Json
deriving Repr

/-- Key lookup in a decoded JSON object (`d.get(k)` / `d[k]`), `none`
when the value is not an object or the key is absent. -/
def Json.lookup : Json → String → Option Json
  | .obj fields, k => fields.lookup k
  | _, _ => none

/-- Python `dict` assignment `d[k] = v`: replace the value in place if
the key exists, otherwise append (preserving insertion order). -/
def setKey (fields : List (String × Json)) (k : String) (v : Json) :
    List (String × Json) :=
  if fields.any (fun p => p.1 = k) then
    fields.map (fun p => if p.1 = k then (k, v) else p)
  else fields ++ [(k, v)]

/-- One rubric scale from `config["assessment"]["ueeq_scales"]`:
a machine name and the two opposing pole labels. -/
structure UeqScale where
  name : String
  left : String
  right : String
deriving Repr, DecidableEq

/-- One evaluation artifact from the interfaces file: `id`,
`description`, optional `image_path`, `pattern_type`. -/
structure InterfaceData where
  id : String
  description : String
  image_path : Option String
  pattern_type : String
deriving Repr, DecidableEq

/-- The metadata block attached by `process_interface`
(`result["metadata"] = {...}`); the timestamp is an environment input
and the float temperature is kept in its formatted form. -/
structure Metadata where
  timestamp : String
  ai_service : String
  model : String
  temperature : String
  pattern_type : String
  interface_id : String
deriving Repr, DecidableEq

/-- The metadata block as the JSON object stored under the
`"metadata"` key. -/
def Metadata.toJson (m : Metadata) : Json :=
  .obj [("timestamp", .str m.timestamp),
        ("ai_service", .str m.ai_service),
        ("model", .str m.model),
        ("temperature", .str m.temperature),
        ("pattern_type", .str m.pattern_type),
        ("interface_id", .str m.interface_id)]

/-- Index of the first occurrence of `c` in `s`, if any
(the `Option`-valued core of Python `str.find`). -/
def firstIdx (s : List Char) (c : Char) : Option Nat :=
  match s with
  | [] => none
  | x :: xs => if x = c then some 0 else (firstIdx xs c).map (· + 1)

/-- Index of the last occurrence of `c` in `s`, if any
(the `Option`-valued core of Python `str.rfind`). -/
def lastIdx (s : List Char) (c : Char) : Option Nat :=
  match s with
  | [] => none
  | x :: xs =>
    match lastIdx xs c with
    | some r => some (r + 1)
    | none => if x = c then some 0 else none

/-- Python `s.find(c)`: lowest index of `c` in `s`, `-1` if absent. -/
def pyFind (s : List Char) (c : Char) : Int :=
  match firstIdx s c with
  | some i => (i : Int)
  | none => -1

/-- Python `s.rfind(c)`: highest index of `c` in `s`, `-1` if absent. -/
def pyRfind (s : List Char) (c : Char) : Int :=
  match lastIdx s c with
  | some i => (i : Int)
  | none => -1

/-- The brace-extraction step of `process_interface`
(ui_assessment.py lines 352-360):
`json_start` is the find-index of the opening brace, `json_end` is the
rfind-index of the closing brace plus one;
if `json_start >= 0 and json_end > json_start` the slice
`response[json_start:json_end]` is returned, otherwise the reply is
rejected (`None`). -/
def findJsonBlock (response : List Char) : Option (List Char) :=
  let json_start := pyFind response lbrace
  let json_end := pyRfind response rbrace + 1
  if json_start ≥ 0 ∧ json_end > json_start then
    some ((response.drop json_start.toNat).take (json_end - json_start).toNat)
  else
    none

/-- Python `s.rstrip(',')`: drop every trailing comma. -/
def rstripComma (s : String) : String :=
  String.mk ((s.toList.reverse.dropWhile (fun c => c = ',')).reverse)

/-- The `scales_text` accumulation of `format_ueq_prompt`
(lines 75-79): one `- left (1) to right (7)` line per scale. -/
def scalesText (ueeq_scales : List UeqScale) : String :=
  ueeq_scales.foldl
    (fun acc sc => acc ++ "- " ++ sc.left ++ " (1) to " ++ sc.right ++ " (7)\n") ""

/-- The `example_assessment` accumulation of `format_ueq_prompt`
(lines 73-83): a JSON skeleton with one `"name": 5` entry per scale,
trailing comma stripped, braces closed. -/
def exampleAssessment (ueeq_scales : List UeqScale) : String :=
  rstripComma (ueeq_scales.foldl
      (fun acc sc => acc ++ "\n                \"" ++ sc.name ++ "\": 5,")
      (String.mk [lbrace]))
    ++ "\n            " ++ String.mk [rbrace]

/-- Model of `format_ueq_prompt` (lines 66-106): splice the UI description, the
scales text and the example JSON skeleton into the instruction template.
The English instruction prose is rubric/prompt content — out of the
core's scope — and is carried by abbreviated template constants; no
claim inspects it. -/
def format_ueq_prompt (ueeq_scales : List UeqScale) (ui_description : String) : String :=
  "\n        ## UI Element Evaluation\n        \n        Instruction: ...\n\n        UI Description: "
    ++ ui_description
    ++ "\n        \n        I perceive this interface feature as...\n\n        "
    ++ scalesText ueeq_scales
    ++ "\n        \n        Rate 1-7 ... JSON object with the following structure:\n        "
    ++ String.mk [lbrace, lbrace]
    ++ "\n            \"assessment\": " ++ exampleAssessment ueeq_scales
    ++ ",\n            \"explanation\": \"Short explanation of your assessment...\"\n        "
    ++ String.mk [rbrace, rbrace]
    ++ "\n        \n        Please ensure your response contains only this JSON object and no other text.\n        "

/-- Python truthiness of a decoded JSON value (`if result:`). -/
def Json.isTruthy : Json → Bool
  | .obj fields => !fields.isEmpty
  | .arr xs => !xs.isEmpty
  | .str s => !(s == "")
  | .num n => !(n == 0)
  | .null => false

/-- Model of `process_interface` (ui_assessment.py lines 326-380) with the
provider adapter (`ai_service_fn`), the JSON decoder (`json.loads`) and
the wall clock (`datetime.now`) as explicit parameters.  A `None` or
empty reply, a reply with no brace-delimited block, a block the decoder
rejects, or a decoded non-object (whose `result["metadata"] = ...`
assignment raises and is caught by the outer handler) all yield `none`;
otherwise the decoded object is returned with the `"metadata"` key
set. -/
def process_interface
    (ueeq_scales : List UeqScale)
    (adapter : String → Option String → Option (List Char))
    (json_loads : List Char → Option Json)
    (ai_service model_name temperature now : String)
    (interface_data : InterfaceData) : Option Json :=
  let prompt := format_ueq_prompt ueeq_scales interface_data.description
  match adapter prompt interface_data.image_path with
  | none => none
  | some response =>
    if response = [] then none
    else
      match findJsonBlock response with
      | none => none
      | some json_str =>
        match json_loads json_str with
        | none => none
        | some result =>
          match result with
          | .obj fields =>
              some (.obj (setKey fields "metadata"
                (Metadata.toJson
                  ⟨now, ai_service, model_name, temperature,
                   interface_data.pattern_type, interface_data.id⟩)))
          | _ => none

/-- Model of `run_assessment` (lines 382-405): iterate over the interfaces in
the order supplied, appending each truthy per-interface result to the
accumulated result list; a `None` result (adapter or parse failure) is
skipped and iteration continues. -/
def run_assessment (process : InterfaceData → Option Json)
    (interfaces : List InterfaceData) : List Json :=
  interfaces.foldl
    (fun results interface_data =>
      match process interface_data with
      | some result => if result.isTruthy then results ++ [result] else results
      | none => results) []

/-! ### The OpenAI-style adapter's retry loop -/

/-- Outcome of one underlying SDK call as seen by `call_openai_gpt4v`'s
handler: a reply text, an exception whose message contains
`"rate limit"` (case-insensitively), or any other exception. -/
inductive CallOutcome where
  | success : List Char → CallOutcome
  | rateLimitErr : CallOutcome
  | otherErr : CallOutcome
deriving Repr, DecidableEq

/-- The token-budget pre-estimate of `call_openai_gpt4v`
(lines 203-206): 250 base plus 10 per configured scale. -/
def expected_tokens (ueeq_scales : List UeqScale) : Nat :=
  250 + ueeq_scales.length * 10

/-- The `for attempt in range(max_retries)` loop of `call_openai_gpt4v`
(lines 211-236), run from attempt number `attempt` with `remaining`
iterations left: a success returns the reply; a rate-limit error sleeps
`retry_delay * 2 ^ attempt` seconds (recorded in the returned list) and
retries; any other error returns `None` at once; an exhausted loop
returns `None`. -/
def openaiRetryAux (api : Nat → CallOutcome) (retry_delay : Nat) :
    Nat → Nat → Option (List Char) × List Nat
  | _, 0 => (none, [])
  | attempt, remaining + 1 =>
    match api attempt with
    | .success t => (some t, [])
    | .rateLimitErr =>
      let wait_time := retry_delay * 2 ^ attempt
      let rest := openaiRetryAux api retry_delay (attempt + 1) remaining
      (rest.1, wait_time :: rest.2)
    | .otherErr => (none, [])

/-- Model of `call_openai_gpt4v` (lines 175-236) abstracted over the SDK call:
`max_retries = 3`, `retry_delay = 5`.  Returns the reply (or `None`)
and the list of back-off sleeps performed. -/
def call_openai_gpt4v (api : Nat → CallOutcome) : Option (List Char) × List Nat :=
  openaiRetryAux api 5 0 3

/-! ### Image encoding and the Anthropic payload -/

/-- Character `n` of the standard base64 alphabet (`n < 64`). -/
def b64Char (n : Nat) : Char :=
  if n < 26 then Char.ofNat (65 + n)
  else if n < 52 then Char.ofNat (97 + (n - 26))
  else if n < 62 then Char.ofNat (48 + (n - 52))
  else if n = 62 then '+'
  else '/'

/-- Standard base64 of a byte sequence (bytes are naturals below 256),
with `'='` padding — the behaviour of `base64.b64encode`. -/
def b64encode : List Nat → List Char
  | [] => []
  | [b0] =>
      [b64Char (b0 / 4 % 64), b64Char (b0 % 4 * 16), '=', '=']
  | [b0, b1] =>
      [b64Char (b0 / 4 % 64), b64Char (b0 % 4 * 16 + b1 / 16 % 16),
       b64Char (b1 % 16 * 4), '=']
  | b0 :: b1 :: b2 :: rest =>
      b64Char (b0 / 4 % 64) :: b64Char (b0 % 4 * 16 + b1 / 16 % 16)
        :: b64Char (b1 % 16 * 4 + b2 / 64 % 4) :: b64Char (b2 % 64)
        :: b64encode rest

/-- Model of `encode_image` (lines 46-54) with the file system as an explicit
map from paths to byte contents: return the base64 encoding of the
file's bytes; a missing file is logged (with the path) and the
exception re-raised — the `.error` value carries the logged message. -/
def encode_image (fs : String → Option (List Nat)) (image_path : String) :
    Except String (List Char) :=
  match fs image_path with
  | some bytes => .ok (b64encode bytes)
  | none => .error ("Image file not found: " ++ image_path)

/-- Python `s.lower().endswith(suffix)` over explicit character
lists. -/
def lowerEndsWith (s : String) (suffix : String) : Bool :=
  suffix.toList.isSuffixOf (s.toList.map Char.toLower)

/-- Model of `get_media_type` (lines 56-64): media type from the lowercased
file extension, defaulting to JPEG. -/
def get_media_type (image_path : String) : String :=
  if lowerEndsWith image_path ".png" then "image/png"
  else if lowerEndsWith image_path ".jpg" || lowerEndsWith image_path ".jpeg"
    then "image/jpeg"
  else "image/jpeg"

/-- One element of the `content` list sent to the provider. -/
inductive ContentPart where
  | text : String → ContentPart
  | image : String → List Char → ContentPart
deriving Repr, DecidableEq

/-- The outbound `content` payload built by `call_anthropic_claude`
(lines 145-159): the prompt text, plus — when an image path is given —
a base64 image block with the extension-derived media type.  An
unreadable image file propagates `encode_image`'s error. -/
def anthropic_content (fs : String → Option (List Nat)) (prompt : String) :
    Option String → Except String (List ContentPart)
  | none => .ok [.text prompt]
  | some image_path =>
    match encode_image fs image_path with
    | .error e => .error e
    | .ok base64_image =>
        .ok [.text prompt, .image (get_media_type image_path) base64_image]

/-! ### The sweep orchestrator (run_multiple_assessments.py) -/

/-- One entry of the configuration's `ai_services` mapping: provider
name and its model list. -/
structure ProviderCfg where
  name : String
  models : List String
deriving Repr, DecidableEq

/-- One row of the usage ledger (`api_usage.csv`), as written by
`update_usage_tracking`; the wall-clock timestamp column is an
environment input and is not modelled.  Temperatures, only ever
formatted, are kept as their formatted strings. -/
structure UsageRecord where
  ai_service : String
  model : String
  temperature : String
  run_number : Nat
  num_interfaces : Nat
  tokens_in : Nat
  tokens_out : Nat
deriving Repr, DecidableEq

/-- The `tokens_per_interface` table of `estimate_tokens`
(lines 72-89): per-provider (input, output) token heuristics, with the
default used for unknown providers. -/
def tokens_per_interface (ai_service : String) : Nat × Nat :=
  if ai_service = "anthropic" then (800, 600)
  else if ai_service = "openai" then (700, 550)
  else if ai_service = "qwen" then (700, 550)
  else if ai_service = "ollama" then (700, 550)
  else (750, 550)

/-- Model of `estimate_tokens` (lines 72-89): the per-provider per-artifact
heuristic multiplied by the artifact count. -/
def estimate_tokens (ai_service : String) (num_interfaces : Nat) : Nat × Nat :=
  ((tokens_per_interface ai_service).1 * num_interfaces,
   (tokens_per_interface ai_service).2 * num_interfaces)

/-- Model of `model_name.replace('-', '_').replace('.', '_')` (line 137). -/
def sanitizeModel (model_name : String) : String :=
  String.mk (model_name.toList.map
    (fun c => if c = '-' then '_' else if c = '.' then '_' else c))

/-- The per-tuple sink file path (lines 134-138), built from output
directory, provider, sanitized model, temperature, run number and the
sweep's timestamp. -/
def output_file (output_dir service_name model_name temperature : String)
    (repeat_num : Nat) (timestamp : String) : String :=
  output_dir ++ "/results_" ++ service_name ++ "_" ++ sanitizeModel model_name
    ++ "_temp" ++ temperature ++ "_run" ++ toString repeat_num
    ++ "_" ++ timestamp ++ ".csv"

/-- Observable actions of one sweep: a runner invocation
(`subprocess.run` of `ui_assessment.py`, with its sink path), a usage
ledger append, or a logged per-tuple failure. -/
inductive SweepEvent where
  | invoked (ai_service model temperature : String) (run_number : Nat)
      (sink : String)
  | usageAppended (row : UsageRecord)
  | failureLogged (ai_service model temperature : String) (run_number : Nat)
deriving Repr, DecidableEq

/-- The `continue`-on-filter guard (lines 121-122 and 127-128):
`if selected and name not in selected: continue`.  Python truthiness:
an absent (`None`) or empty selection filters nothing. -/
def skipByFilter (selected : Option (List String)) (name : String) : Bool :=
  match selected with
  | none => false
  | some l => if l.isEmpty then false else !(l.contains name)

/-- The body of the innermost loop (lines 133-185) for one
(provider, model, temperature, run) tuple: build the sink path and the
usage data (with `estimate_tokens`), run the external assessment, and
on success append the usage row — a failed run (`CalledProcessError`)
is logged and the loop continues without appending. -/
def tupleEvents (runner : String → String → String → Nat → Bool)
    (num_interfaces : Nat) (timestamp output_dir : String)
    (service_name model_name temperature : String) (repeat_num : Nat) :
    List SweepEvent :=
  let sink := output_file output_dir service_name model_name temperature
    repeat_num timestamp
  let est := estimate_tokens service_name num_interfaces
  let urow : UsageRecord :=
    ⟨service_name, model_name, temperature, repeat_num, num_interfaces,
     est.1, est.2⟩
  if runner service_name model_name temperature repeat_num then
    [.invoked service_name model_name temperature repeat_num sink,
     .usageAppended urow]
  else
    [.invoked service_name model_name temperature repeat_num sink,
     .failureLogged service_name model_name temperature repeat_num]

/-- Model of `run_multiple_assessments` (lines 101-188) abstracted over the
external runner (`subprocess.run` success/failure per tuple): the four
nested loops over providers, their models, temperatures and run numbers
`1..repeats`, with the optional service/model filters, emitting each
tuple's events in order. -/
def run_multiple_assessments (ai_services : List ProviderCfg)
    (temperatures : List String) (repeats : Nat)
    (selected_services selected_models : Option (List String))
    (runner : String → String → String → Nat → Bool)
    (num_interfaces : Nat) (timestamp output_dir : String) :
    List SweepEvent :=
  ai_services.flatMap (fun svc =>
    if skipByFilter selected_services svc.name then []
    else svc.models.flatMap (fun model_name =>
      if skipByFilter selected_models model_name then []
      else temperatures.flatMap (fun temperature =>
        (List.range repeats).flatMap (fun r =>
          tupleEvents runner num_interfaces timestamp output_dir
            svc.name model_name temperature (r + 1)))))

/-- Model of `main` of run_multiple_assessments.py (lines 190-217): an
unreadable configuration file makes `load_config` raise, which is
caught and turned into exit code 1; otherwise the sweep runs to
completion (per-tuple failures are contained inside it) and the exit
code is 0. -/
def sweep_main (config_load : Option (List ProviderCfg))
    (temperatures : List String) (repeats : Nat)
    (selected_services selected_models : Option (List String))
    (runner : String → String → String → Nat → Bool)
    (num_interfaces : Nat) (timestamp output_dir : String) :
    Nat × List SweepEvent :=
  match config_load with
  | none => (1, [])
  | some ai_services =>
      (0, run_multiple_assessments ai_services temperatures repeats
        selected_services selected_models runner num_interfaces
        timestamp output_dir)

/-- The runner invocations recorded in a sweep's event list, with their
sink paths. -/
def invokedTuples (events : List SweepEvent) :
    List (String × String × String × Nat × String) :=
  events.filterMap (fun e =>
    match e with
    | .invoked s m t r sink => some (s, m, t, r, sink)
    | _ => none)

/-- The usage rows appended during a sweep. -/
def usageRows (events : List SweepEvent) : List UsageRecord :=
  events.filterMap (fun e =>
    match e with
    | .usageAppended row => some row
    | _ => none)

/-- Spec-side enumeration order: every (provider, model, temperature,
repetition) tuple in the nested order provider, then model, then
temperature, then repetition, repetitions numbered from 1. -/
def specTupleOrder (ai_services : List ProviderCfg)
    (temperatures : List String) (repeats : Nat) :
    List (String × String × String × Nat) :=
  ai_services.flatMap (fun svc =>
    svc.models.flatMap (fun model_name =>
      temperatures.flatMap (fun temperature =>
        (List.range repeats).map (fun r =>
          (svc.name, model_name, temperature, r + 1)))))

/-! ### The result recorder (save_results_to_csv) -/

/-- Model of `result.get(k, \x7b\x7d).items()` (lines 420-425): the default empty
object when the key is absent; `none` models the `AttributeError`
raised when the looked-up value (or `result` itself) is not an
object — caught by the outer handler and re-raised. -/
def getDefaultObj (result : Json) (k : String) :
    Option (List (String × Json)) :=
  match result with
  | .obj fields =>
    match fields.lookup k with
    | some (.obj sub) => some sub
    | some _ => none
    | none => some []
  | _ => none

/-- Model of `result.get("explanation", "")` (line 428). -/
def getExplanation (result : Json) : Json :=
  match result with
  | .obj fields => (fields.lookup "explanation").getD (.str "")
  | _ => .str ""

/-- The flattening of one result (lines 416-430): prefixed metadata
columns, prefixed score columns, then the explanation column. -/
def flatten_result (result : Json) : Option (List (String × Json)) :=
  match getDefaultObj result "metadata" with
  | none => none
  | some mfields =>
    match getDefaultObj result "assessment" with
    | none => none
    | some afields =>
      some (mfields.map (fun p => ("metadata_" ++ p.1, p.2))
        ++ afields.map (fun p => ("score_" ++ p.1, p.2))
        ++ [("explanation", getExplanation result)])

/-- Accumulate a row's keys into the column list in first-appearance
order, skipping keys already present — `pd.DataFrame`'s column
inference over a list of dicts. -/
def addCols (cols : List String) (row : List (String × Json)) :
    List String :=
  row.foldl (fun cs p => if cs.contains p.1 then cs else cs ++ [p.1]) cols

/-- The DataFrame's column set: union of all rows' keys in
first-appearance order. -/
def dfColumns (rows : List (List (String × Json))) : List String :=
  rows.foldl addCols []

/-- A written CSV table: header plus one cell row per result; a `none`
cell is pandas `NaN`, written as an empty cell by `to_csv`. -/
structure CsvTable where
  header : List String
  rows : List (List (Option Json))
deriving Repr

/-- Model of `pd.DataFrame(flattened_results)` followed by `to_csv`: every row
is aligned to the union column set, cells absent from a row left
empty. -/
def toCsvTable (frows : List (List (String × Json))) : CsvTable :=
  let cols := dfColumns frows
  ⟨cols, frows.map (fun row => cols.map (fun c => row.lookup c))⟩

/-- The flattening loop over the result list: stops with `none` when
any single result fails to flatten (the raised error aborts the save),
otherwise collects the flattened rows in order. -/
def mapOption {a b : Type} (f : a → Option b) : List a → Option (List b)
  | [] => some []
  | x :: l =>
    match f x, mapOption f l with
    | some y, some ys => some (y :: ys)
    | _, _ => none

/-- Model of `save_results_to_csv` (lines 407-439) with the output file system
explicit (most recent write first): an empty result list logs a warning
and returns with nothing written; otherwise the flattened rows are
written as a table at `output_path`; a flattening error is logged and
re-raised (`none`). -/
def save_results_to_csv (results : List Json) (output_path : String)
    (fs : List (String × CsvTable)) : Option (List (String × CsvTable)) :=
  if results.isEmpty then some fs
  else
    match mapOption flatten_result results with
    | none => none
    | some frows => some ((output_path, toCsvTable frows) :: fs)

/-! ### Derived notions used in theorem statements -/

/-- The score stored under one scale name in a result's
`"assessment"` mapping. -/
def scoreOf (result : Json) (scale_name : String) : Option Json :=
  match result.lookup "assessment" with
  | some a => a.lookup scale_name
  | none => none

/-- A reply contains an opening brace followed (strictly later) by a
closing brace. -/
def HasBracePair (s : List Char) : Prop :=
  ∃ i j : Nat, i < j ∧ s[i]? = some lbrace ∧ s[j]? = some rbrace

/-- Index `i` is the position of the first occurrence of `c` in `s`. -/
def IsFirstOcc (s : List Char) (c : Char) (i : Nat) : Prop :=
  s[i]? = some c ∧ ∀ k, k < i → s[k]? ≠ some c

/-- Index `j` is the position of the last occurrence of `c` in `s`. -/
def IsLastOcc (s : List Char) (c : Char) (j : Nat) : Prop :=
  s[j]? = some c ∧ ∀ k, j < k → s[k]? ≠ some c

/-- A value that will have `.items()` called on it after a defaulted
lookup: absent is fine (defaults to `{}`), present must be an object. -/
def objValued : Option Json → Bool
  | some (.obj _) => true
  | some _ => false
  | none => true

/-- A result the recorder can flatten: an object whose `"metadata"`
and `"assessment"` entries, when present, are objects. -/
def wellFormedResult : Json → Bool
  | .obj fields =>
      objValued (fields.lookup "metadata") && objValued (fields.lookup "assessment")
  | _ => false

/-- The rubric used by the C1 counterexample: one declared scale. -/
def cxScales : List UeqScale := [⟨"supportive", "obstructive", "supportive"⟩]

/-- A raw reply whose structured block's score mapping is empty —
it declares no score for any scale. -/
def cxReply : List Char :=
  [lbrace] ++ "\"assessment\": ".toList ++ [lbrace, rbrace]
    ++ ", \"explanation\": \"e\"".toList ++ [rbrace]

/-- What `json.loads` returns on `cxReply`'s extracted block. -/
def cxDecoded : Json :=
  .obj [("assessment", .obj []), ("explanation", .str "e")]

/-- A JSON decoder defined on exactly the block `cxReply` contains. -/
def cxLoads : List Char → Option Json :=
  fun s => if s = cxReply then some cxDecoded else none

/-- The per-tuple failures logged during a sweep. -/
def failureLogs (events : List SweepEvent) :
    List (String × String × String × Nat) :=
  events.filterMap (fun e =>
    match e with
    | .failureLogged s m t r => some (s, m, t, r)
    | _ => none)

/-- The tuples surviving the orchestrator's provider/model filters, in
enumeration order. -/
def filteredTuples (ai_services : List ProviderCfg)
    (temperatures : List String) (repeats : Nat)
    (selected_services selected_models : Option (List String)) :
    List (String × String × String × Nat) :=
  (ai_services.filter (fun svc => !skipByFilter selected_services svc.name)).flatMap
    (fun svc =>
      (svc.models.filter (fun m => !skipByFilter selected_models m)).flatMap
        (fun model_name =>
          temperatures.flatMap (fun temperature =>
            (List.range repeats).map (fun r =>
              (svc.name, model_name, temperature, r + 1)))))

/-- A file system for the C9 counterexample: two paths, differing only
in extension, holding identical bytes. -/
def c9fs : String → Option (List Nat) :=
  fun p =>
    if p = "a.png" then some [1, 2, 3]
    else if p = "a.jpg" then some [1, 2, 3]
    else none

/-! ### Lemmas about first/last occurrence search -/

theorem firstIdx_eq_none_iff (s : List Char) (c : Char) :
    firstIdx s c = none ↔ c ∉ s := by
  induction s with
  | nil => simp [firstIdx]
  | cons x xs ih =>
    by_cases hx : x = c
    · subst hx; simp [firstIdx]
    · have hcx : ¬ c = x := fun h => hx h.symm
      simp [firstIdx, hx, Option.map_eq_none', ih, List.mem_cons, hcx]

theorem firstIdx_getElem (s : List Char) (c : Char) (i : Nat)
    (h : firstIdx s c = some i) : s[i]? = some c := by
  induction s generalizing i with
  | nil => simp [firstIdx] at h
  | cons x xs ih =>
    by_cases hx : x = c
    · simp [firstIdx, hx] at h
      simp [← h, hx]
    · simp [firstIdx, hx] at h
      obtain ⟨a, ha, rfl⟩ := h
      simpa using ih a ha

theorem firstIdx_le (s : List Char) (c : Char) (i k : Nat)
    (h : firstIdx s c = some i) (hk : s[k]? = some c) : i ≤ k := by
  induction s generalizing i k with
  | nil => simp at hk
  | cons x xs ih =>
    by_cases hx : x = c
    · simp [firstIdx, hx] at h
      omega
    · simp [firstIdx, hx] at h
      obtain ⟨a, ha, rfl⟩ := h
      cases k with
      | zero => simp at hk; exact absurd hk hx
      | succ k =>
        simp only [List.getElem?_cons_succ] at hk
        exact Nat.succ_le_succ (ih a k ha hk)

theorem lastIdx_eq_none_iff (s : List Char) (c : Char) :
    lastIdx s c = none ↔ c ∉ s := by
  induction s with
  | nil => simp [lastIdx]
  | cons x xs ih =>
    cases hxs : lastIdx xs c with
    | some r =>
      have hmem : c ∈ xs := by
        by_contra hnm
        rw [ih.2 hnm] at hxs
        cases hxs
      simp [lastIdx, hxs, List.mem_cons, hmem]
    | none =>
      have hnm : c ∉ xs := ih.1 hxs
      by_cases hx : x = c
      · subst hx; simp [lastIdx, hxs]
      · have hcx : ¬ c = x := fun h => hx h.symm
        simp [lastIdx, hxs, hx, List.mem_cons, hcx, hnm]

theorem lastIdx_getElem (s : List Char) (c : Char) (j : Nat)
    (h : lastIdx s c = some j) : s[j]? = some c := by
  induction s generalizing j with
  | nil => simp [lastIdx] at h
  | cons x xs ih =>
    cases hxs : lastIdx xs c with
    | some r =>
      simp [lastIdx, hxs] at h
      simp [← h, ih r hxs]
    | none =>
      by_cases hx : x = c
      · simp [lastIdx, hxs, hx] at h
        simp [← h, hx]
      · simp [lastIdx, hxs, hx] at h

theorem lastIdx_ge (s : List Char) (c : Char) (j k : Nat)
    (h : lastIdx s c = some j) (hk : s[k]? = some c) : k ≤ j := by
  induction s generalizing j k with
  | nil => simp at hk
  | cons x xs ih =>
    cases hxs : lastIdx xs c with
    | some r =>
      simp [lastIdx, hxs] at h
      cases k with
      | zero => omega
      | succ k =>
        simp only [List.getElem?_cons_succ] at hk
        have := ih r k hxs hk
        omega
    | none =>
      have hnm : c ∉ xs := (lastIdx_eq_none_iff xs c).1 hxs
      by_cases hx : x = c
      · simp [lastIdx, hxs, hx] at h
        cases k with
        | zero => omega
        | succ k =>
          simp only [List.getElem?_cons_succ] at hk
          exact absurd (List.getElem?_mem hk) hnm
      · simp [lastIdx, hxs, hx] at h

theorem hasBracePair_iff (s : List Char) :
    HasBracePair s ↔
      ∃ i j, firstIdx s lbrace = some i ∧ lastIdx s rbrace = some j ∧ i < j := by
  constructor
  · rintro ⟨a, b, hab, ha, hb⟩
    cases hfi : firstIdx s lbrace with
    | none =>
      exact absurd (List.getElem?_mem ha) ((firstIdx_eq_none_iff s lbrace).1 hfi)
    | some i =>
      cases hli : lastIdx s rbrace with
      | none =>
        exact absurd (List.getElem?_mem hb) ((lastIdx_eq_none_iff s rbrace).1 hli)
      | some j =>
        refine ⟨i, j, rfl, rfl, ?_⟩
        have h1 : i ≤ a := firstIdx_le s lbrace i a hfi ha
        have h2 : b ≤ j := lastIdx_ge s rbrace j b hli hb
        omega
  · rintro ⟨i, j, hi, hj, hij⟩
    exact ⟨i, j, hij, firstIdx_getElem s lbrace i hi, lastIdx_getElem s rbrace j hj⟩

theorem findJsonBlock_eq_none (s : List Char) (h : ¬ HasBracePair s) :
    findJsonBlock s = none := by
  rw [findJsonBlock]
  cases hfi : firstIdx s lbrace with
  | none => simp [pyFind, hfi]
  | some i =>
    cases hli : lastIdx s rbrace with
    | none =>
      simp only [pyFind, pyRfind, hfi, hli]
      have : ¬((i : Int) ≥ 0 ∧ (-1 : Int) + 1 > (i : Int)) := by omega
      simp [this]
    | some j =>
      have hglb : s[i]? = some lbrace := firstIdx_getElem s lbrace i hfi
      have hgrb : s[j]? = some rbrace := lastIdx_getElem s rbrace j hli
      have hne : i ≠ j := by
        intro he
        rw [he, hgrb] at hglb
        have : lbrace = rbrace := by injection hglb.symm
        simp [lbrace, rbrace] at this
      have hji : ¬ i < j := fun hij => h ⟨i, j, hij, hglb, hgrb⟩
      simp only [pyFind, pyRfind, hfi, hli]
      have : ¬((i : Int) ≥ 0 ∧ (j : Int) + 1 > (i : Int)) := by omega
      rw [if_neg this]

theorem findJsonBlock_eq_some (s : List Char) (i j : Nat)
    (hi : firstIdx s lbrace = some i) (hj : lastIdx s rbrace = some j)
    (hij : i < j) :
    findJsonBlock s = some ((s.drop i).take (j + 1 - i)) := by
  rw [findJsonBlock]
  simp only [pyFind, pyRfind, hi, hj]
  have hc : ((i : Int) ≥ 0 ∧ (j : Int) + 1 > (i : Int)) := by omega
  rw [if_pos hc]
  have h1 : ((i : Int)).toNat = i := by omega
  have h2 : ((j : Int) + 1 - (i : Int)).toNat = j + 1 - i := by omega
  rw [h1, h2]

theorem isFirstOcc_firstIdx (s : List Char) (c : Char) (i : Nat)
    (h : IsFirstOcc s c i) : firstIdx s c = some i := by
  obtain ⟨hg, hmin⟩ := h
  cases hfi : firstIdx s c with
  | none =>
    exact absurd (List.getElem?_mem hg) ((firstIdx_eq_none_iff s c).1 hfi)
  | some a =>
    have h1 : a ≤ i := firstIdx_le s c a i hfi hg
    rcases Nat.lt_or_ge a i with hlt | hge
    · exact absurd (firstIdx_getElem s c a hfi) (hmin a hlt)
    · have : a = i := by omega
      rw [this]

theorem isLastOcc_lastIdx (s : List Char) (c : Char) (j : Nat)
    (h : IsLastOcc s c j) : lastIdx s c = some j := by
  obtain ⟨hg, hmax⟩ := h
  cases hli : lastIdx s c with
  | none =>
    exact absurd (List.getElem?_mem hg) ((lastIdx_eq_none_iff s c).1 hli)
  | some a =>
    have h1 : j ≤ a := lastIdx_ge s c a j hli hg
    rcases Nat.lt_or_ge j a with hlt | hge
    · exact absurd (lastIdx_getElem s c a hli) (hmax a hlt)
    · have : a = j := by omega
      rw [this]

/-! ### Lemmas about dict assignment -/

theorem lookup_cons (a : String) (p : String × Json)
    (l : List (String × Json)) :
    List.lookup a (p :: l) = if a == p.1 then some p.2 else List.lookup a l := by
  obtain ⟨k, b⟩ := p
  rw [List.lookup]
  cases h : a == k <;> simp [h]

theorem lookup_replaceEntry_ne (fields : List (String × Json))
    (k k' : String) (v : Json) (h : k' ≠ k) :
    (fields.map (fun p => if p.1 = k then (k, v) else p)).lookup k'
      = fields.lookup k' := by
  induction fields with
  | nil => rfl
  | cons p ps ih =>
    by_cases hp : p.1 = k
    · have hk : (k' == k) = false := by simp [h]
      have hp' : (k' == p.1) = false := by rw [hp]; simp [h]
      rw [List.map_cons, if_pos hp, lookup_cons, lookup_cons]
      simp only [hk, hp', ih, Bool.false_eq_true, if_false]
    · rw [List.map_cons, if_neg hp, lookup_cons, lookup_cons, ih]

theorem lookup_append_single_ne (fields : List (String × Json))
    (k k' : String) (v : Json) (h : k' ≠ k) :
    ((fields ++ [(k, v)]).lookup k') = fields.lookup k' := by
  induction fields with
  | nil =>
    have hk : (k' == k) = false := by simp [h]
    simp [lookup_cons, hk]
  | cons p ps ih =>
    rw [List.cons_append, lookup_cons, lookup_cons, ih]

theorem lookup_setKey_ne (fields : List (String × Json))
    (k k' : String) (v : Json) (h : k' ≠ k) :
    (setKey fields k v).lookup k' = fields.lookup k' := by
  rw [setKey]
  by_cases hany : fields.any (fun p => p.1 = k) = true
  · rw [if_pos hany]; exact lookup_replaceEntry_ne fields k k' v h
  · rw [if_neg hany]; exact lookup_append_single_ne fields k k' v h

theorem setKey_ne_nil (fields : List (String × Json)) (k : String)
    (v : Json) : setKey fields k v ≠ [] := by
  rw [setKey]
  by_cases hany : fields.any (fun p => p.1 = k) = true
  · rw [if_pos hany]
    intro hmap
    rw [List.map_eq_nil_iff] at hmap
    subst hmap
    simp at hany
  · rw [if_neg hany]
    simp

/-! ### C6 — brace extraction and parse-failure containment -/

/-- C6: a raw reply containing no opening brace followed later by a
closing brace makes the Response Parser (`process_interface`) report a
parse failure (`none`; the embedding is a total function, so nothing
is raised past the caller); when such a pair exists, the decoded
substring is exactly the slice from the first opening brace through
the last closing brace, and a decoder failure on that slice likewise
yields `none`. -/
theorem C6_parser_brace_extraction
    (ueeq_scales : List UeqScale)
    (adapter : String → Option String → Option (List Char))
    (json_loads : List Char → Option Json)
    (ai_service model_name temperature now : String)
    (iface : InterfaceData) (response : List Char)
    (hresp : adapter (format_ueq_prompt ueeq_scales iface.description)
      iface.image_path = some response) :
    (¬ HasBracePair response →
      process_interface ueeq_scales adapter json_loads ai_service
        model_name temperature now iface = none) ∧
    (∀ i j, IsFirstOcc response lbrace i → IsLastOcc response rbrace j →
      i < j →
      findJsonBlock response = some ((response.drop i).take (j + 1 - i)) ∧
      (json_loads ((response.drop i).take (j + 1 - i)) = none →
        process_interface ueeq_scales adapter json_loads ai_service
          model_name temperature now iface = none)) := by
  constructor
  · intro hnp
    by_cases hr : response = []
    · simp [process_interface, hresp, hr]
    · simp [process_interface, hresp, hr, findJsonBlock_eq_none response hnp]
  · intro i j hfo hlo hij
    have hfi := isFirstOcc_firstIdx response lbrace i hfo
    have hli := isLastOcc_lastIdx response rbrace j hlo
    have hblock := findJsonBlock_eq_some response i j hfi hli hij
    refine ⟨hblock, fun hdec => ?_⟩
    have hr : response ≠ [] := by
      intro h0
      rw [h0] at hfo
      simp [IsFirstOcc] at hfo
    simp [process_interface, hresp, hr, hblock, hdec]

/-- Closed instantiation of C6: a brace-free reply is rejected. -/
theorem C6_parser_brace_extraction_witness :
    process_interface [] (fun _ _ => some ("no json here".toList))
      (fun _ => none) "openai" "gpt-4o" "0.0" "t0"
      ⟨"A1", "login screen", none, "nagging"⟩ = none := by
  have hnp : ¬ HasBracePair ("no json here".toList) := by
    rw [hasBracePair_iff]
    rintro ⟨i, j, hi, -, -⟩
    rw [show firstIdx ("no json here".toList) lbrace = none by decide] at hi
    cases hi
  exact (C6_parser_brace_extraction [] (fun _ _ => some ("no json here".toList))
    (fun _ => none) "openai" "gpt-4o" "0.0" "t0"
    ⟨"A1", "login screen", none, "nagging"⟩ ("no json here".toList) rfl).1 hnp

/-! ### C1 — no rubric-field validation in the parser -/

/-- C1 counterexample: the decoded score mapping misses the declared
scale `"supportive"`, yet `process_interface` accepts the reply and
emits a result — it does not reject replies with missing rubric
fields. -/
theorem C1_missing_scale_accepted_cx :
    (∃ sc ∈ cxScales, scoreOf cxDecoded sc.name = none) ∧
    (process_interface cxScales (fun _ _ => some cxReply) cxLoads
      "openai" "gpt-4o" "0.0" "t0"
      ⟨"A1", "login screen", none, "nagging"⟩).isSome = true := by
  constructor
  · exact ⟨⟨"supportive", "obstructive", "supportive"⟩, by simp [cxScales], rfl⟩
  · rfl

/-- C1 (amended): the Response Parser performs no rubric-field
validation at all — whenever the reply's block decodes to an object,
the reply is accepted regardless of which scale names the score
mapping contains, and the score mapping is passed through unchanged
(so a missing field stays missing in the emitted result: it is never
zero-filled, but it is not rejected either). -/
theorem C1_parser_no_rubric_validation
    (ueeq_scales : List UeqScale)
    (adapter : String → Option String → Option (List Char))
    (json_loads : List Char → Option Json)
    (ai_service model_name temperature now : String)
    (iface : InterfaceData) (response json_str : List Char)
    (fields : List (String × Json))
    (hresp : adapter (format_ueq_prompt ueeq_scales iface.description)
      iface.image_path = some response)
    (hne : response ≠ [])
    (hblock : findJsonBlock response = some json_str)
    (hdec : json_loads json_str = some (.obj fields)) :
    ∃ out, process_interface ueeq_scales adapter json_loads ai_service
        model_name temperature now iface = some (.obj out) ∧
      ∀ scale_name : String,
        scoreOf (.obj out) scale_name = scoreOf (.obj fields) scale_name := by
  refine ⟨setKey fields "metadata"
    (Metadata.toJson ⟨now, ai_service, model_name, temperature,
      iface.pattern_type, iface.id⟩), ?_, ?_⟩
  · simp [process_interface, hresp, hne, hblock, hdec]
  · intro scale_name
    have h := lookup_setKey_ne fields "metadata" "assessment"
      (Metadata.toJson ⟨now, ai_service, model_name, temperature,
        iface.pattern_type, iface.id⟩) (by decide)
    simp [scoreOf, Json.lookup, h]

/-- Closed instantiation of the amended C1: with the counterexample's
rubric and reply, the emitted result still has no score under
`"supportive"` (nothing was zero-filled), yet it was emitted. -/
theorem C1_parser_no_rubric_validation_witness :
    ∃ out, process_interface cxScales (fun _ _ => some cxReply) cxLoads
        "openai" "gpt-4o" "0.0" "t0"
        ⟨"A1", "login screen", none, "nagging"⟩ = some (.obj out) ∧
      ∀ scale_name : String,
        scoreOf (.obj out) scale_name = scoreOf cxDecoded scale_name := by
  exact C1_parser_no_rubric_validation cxScales
    (fun _ _ => some cxReply) cxLoads "openai" "gpt-4o" "0.0" "t0"
    ⟨"A1", "login screen", none, "nagging"⟩ cxReply cxReply
    [("assessment", .obj []), ("explanation", .str "e")]
    rfl (by decide) (by decide) rfl

/-! ### C5 — the assessment loop: order and per-artifact containment -/

theorem process_interface_some_shape
    (ueeq_scales : List UeqScale)
    (adapter : String → Option String → Option (List Char))
    (json_loads : List Char → Option Json)
    (ai_service model_name temperature now : String)
    (iface : InterfaceData) (result : Json)
    (h : process_interface ueeq_scales adapter json_loads ai_service
      model_name temperature now iface = some result) :
    ∃ fields, result = .obj (setKey fields "metadata"
      (Metadata.toJson ⟨now, ai_service, model_name, temperature,
        iface.pattern_type, iface.id⟩)) := by
  cases had : adapter (format_ueq_prompt ueeq_scales iface.description)
      iface.image_path with
  | none => simp [process_interface, had] at h
  | some response =>
    by_cases hr : response = []
    · simp [process_interface, had, hr] at h
    · cases hb : findJsonBlock response with
      | none => simp [process_interface, had, hr, hb] at h
      | some json_str =>
        cases hd : json_loads json_str with
        | none => simp [process_interface, had, hr, hb, hd] at h
        | some decoded =>
          cases decoded with
          | obj fields =>
            simp [process_interface, had, hr, hb, hd] at h
            exact ⟨fields, h.symm⟩
          | str s => simp [process_interface, had, hr, hb, hd] at h
          | num n => simp [process_interface, had, hr, hb, hd] at h
          | null => simp [process_interface, had, hr, hb, hd] at h
          | arr a => simp [process_interface, had, hr, hb, hd] at h

theorem process_interface_isTruthy
    (ueeq_scales : List UeqScale)
    (adapter : String → Option String → Option (List Char))
    (json_loads : List Char → Option Json)
    (ai_service model_name temperature now : String)
    (iface : InterfaceData) (result : Json)
    (h : process_interface ueeq_scales adapter json_loads ai_service
      model_name temperature now iface = some result) :
    result.isTruthy = true := by
  obtain ⟨fields, rfl⟩ := process_interface_some_shape ueeq_scales adapter
    json_loads ai_service model_name temperature now iface result h
  cases hsk : setKey fields "metadata"
      (Metadata.toJson ⟨now, ai_service, model_name, temperature,
        iface.pattern_type, iface.id⟩) with
  | nil => exact absurd hsk (setKey_ne_nil _ _ _)
  | cons p ps => simp [Json.isTruthy, hsk]

theorem run_assessment_eq_filterMap
    (process : InterfaceData → Option Json)
    (htruthy : ∀ i r, process i = some r → r.isTruthy = true)
    (interfaces : List InterfaceData) :
    run_assessment process interfaces = interfaces.filterMap process := by
  have key : ∀ (l : List InterfaceData) (acc : List Json),
      l.foldl (fun results interface_data =>
        match process interface_data with
        | some result =>
            if result.isTruthy then results ++ [result] else results
        | none => results) acc = acc ++ l.filterMap process := by
    intro l
    induction l with
    | nil => intro acc; simp
    | cons d ds ih =>
      intro acc
      cases hd : process d with
      | none => simp [hd, ih, List.filterMap_cons]
      | some r =>
        simp [hd, htruthy d r hd, ih, List.filterMap_cons]
  simpa using key interfaces []

/-- C5: the Assessment Runner (`run_assessment`) driven by the real
per-artifact step (`process_interface`) emits exactly the successful
artifacts' results in input order (`filterMap`), and a per-artifact
adapter or parse failure removes only that artifact — the artifacts
before and after it are still processed and their results kept in
order. -/
theorem C5_run_assessment_order_and_skip
    (ueeq_scales : List UeqScale)
    (adapter : String → Option String → Option (List Char))
    (json_loads : List Char → Option Json)
    (ai_service model_name temperature now : String)
    (interfaces l1 l2 : List InterfaceData) (a : InterfaceData) :
    run_assessment (process_interface ueeq_scales adapter json_loads
        ai_service model_name temperature now) interfaces
      = interfaces.filterMap (process_interface ueeq_scales adapter
          json_loads ai_service model_name temperature now) ∧
    (process_interface ueeq_scales adapter json_loads ai_service
        model_name temperature now a = none →
      run_assessment (process_interface ueeq_scales adapter json_loads
          ai_service model_name temperature now) (l1 ++ a :: l2)
        = run_assessment (process_interface ueeq_scales adapter json_loads
            ai_service model_name temperature now) l1
          ++ run_assessment (process_interface ueeq_scales adapter
              json_loads ai_service model_name temperature now) l2) := by
  have htruthy := process_interface_isTruthy ueeq_scales adapter json_loads
    ai_service model_name temperature now
  have heq := run_assessment_eq_filterMap
    (process_interface ueeq_scales adapter json_loads ai_service
      model_name temperature now)
    (fun i r h => htruthy i r h)
  refine ⟨heq interfaces, fun ha => ?_⟩
  rw [heq (l1 ++ a :: l2), heq l1, heq l2,
    List.filterMap_append, List.filterMap_cons, ha]

/-- Closed instantiation of C5: with an adapter that fails on the
middle artifact's description, the other two artifacts' results are
emitted in order. -/
theorem C5_run_assessment_order_and_skip_witness :
    run_assessment (process_interface cxScales
        (fun _ _ => some cxReply) cxLoads "openai" "gpt-4o" "0.0" "t0")
      [⟨"A1", "d1", none, "p1"⟩]
      = [⟨"A1", "d1", none, "p1"⟩].filterMap (process_interface cxScales
          (fun _ _ => some cxReply) cxLoads "openai" "gpt-4o" "0.0" "t0") ∧
    run_assessment (process_interface cxScales (fun _ _ => none) cxLoads
        "openai" "gpt-4o" "0.0" "t0")
      ([⟨"A1", "d1", none, "p1"⟩] ++ ⟨"A2", "d2", none, "p2"⟩
        :: [⟨"A3", "d3", none, "p3"⟩])
      = run_assessment (process_interface cxScales (fun _ _ => none) cxLoads
          "openai" "gpt-4o" "0.0" "t0") [⟨"A1", "d1", none, "p1"⟩]
        ++ run_assessment (process_interface cxScales (fun _ _ => none)
            cxLoads "openai" "gpt-4o" "0.0" "t0") [⟨"A3", "d3", none, "p3"⟩] :=
  ⟨(C5_run_assessment_order_and_skip cxScales (fun _ _ => some cxReply)
      cxLoads "openai" "gpt-4o" "0.0" "t0" [⟨"A1", "d1", none, "p1"⟩]
      [] [] ⟨"A1", "d1", none, "p1"⟩).1,
   (C5_run_assessment_order_and_skip cxScales (fun _ _ => none) cxLoads
      "openai" "gpt-4o" "0.0" "t0" [] [⟨"A1", "d1", none, "p1"⟩]
      [⟨"A3", "d3", none, "p3"⟩] ⟨"A2", "d2", none, "p2"⟩).2 rfl⟩

/-! ### C4 — bounded retry with exponential backoff -/

theorem range_succ_pow (rd attempt K : Nat) :
    (List.range (K + 1)).map (fun i => rd * 2 ^ (attempt + i))
      = rd * 2 ^ attempt
        :: (List.range K).map (fun i => rd * 2 ^ (attempt + 1 + i)) := by
  rw [List.range_succ_eq_map, List.map_cons, List.map_map]
  refine congrArg₂ List.cons (by rw [Nat.add_zero]) ?_
  refine List.map_congr_left (fun i _ => ?_)
  show rd * 2 ^ (attempt + (i + 1)) = rd * 2 ^ (attempt + 1 + i)
  rw [show attempt + (i + 1) = attempt + 1 + i from by omega]

theorem openaiRetryAux_success (api : Nat → CallOutcome) (rd : Nat) :
    ∀ (K attempt remaining : Nat) (t : List Char), K < remaining →
    (∀ i, i < K → api (attempt + i) = .rateLimitErr) →
    api (attempt + K) = .success t →
    openaiRetryAux api rd attempt remaining
      = (some t, (List.range K).map (fun i => rd * 2 ^ (attempt + i))) := by
  intro K
  induction K with
  | zero =>
    intro attempt remaining t hlt hpre hs
    cases remaining with
    | zero => omega
    | succ m =>
      rw [Nat.add_zero] at hs
      simp only [openaiRetryAux]
      rw [hs]
      simp
  | succ K ih =>
    intro attempt remaining t hlt hpre hs
    cases remaining with
    | zero => omega
    | succ m =>
      have h0 : api attempt = .rateLimitErr := by
        simpa using hpre 0 (by omega)
      have hrest := ih (attempt + 1) m t (by omega)
        (fun i hi => by
          have h := hpre (i + 1) (by omega)
          rw [show attempt + (i + 1) = attempt + 1 + i from by omega] at h
          exact h)
        (by
          rw [show attempt + 1 + K = attempt + (K + 1) from by omega]
          exact hs)
      simp only [openaiRetryAux]
      rw [h0]
      simp only [hrest, range_succ_pow]

theorem openaiRetryAux_otherErr (api : Nat → CallOutcome) (rd : Nat) :
    ∀ (K attempt remaining : Nat), K < remaining →
    (∀ i, i < K → api (attempt + i) = .rateLimitErr) →
    api (attempt + K) = .otherErr →
    openaiRetryAux api rd attempt remaining
      = (none, (List.range K).map (fun i => rd * 2 ^ (attempt + i))) := by
  intro K
  induction K with
  | zero =>
    intro attempt remaining hlt hpre hs
    cases remaining with
    | zero => omega
    | succ m =>
      rw [Nat.add_zero] at hs
      simp only [openaiRetryAux]
      rw [hs]
      simp
  | succ K ih =>
    intro attempt remaining hlt hpre hs
    cases remaining with
    | zero => omega
    | succ m =>
      have h0 : api attempt = .rateLimitErr := by
        simpa using hpre 0 (by omega)
      have hrest := ih (attempt + 1) m (by omega)
        (fun i hi => by
          have h := hpre (i + 1) (by omega)
          rw [show attempt + (i + 1) = attempt + 1 + i from by omega] at h
          exact h)
        (by
          rw [show attempt + 1 + K = attempt + (K + 1) from by omega]
          exact hs)
      simp only [openaiRetryAux]
      rw [h0]
      simp only [hrest, range_succ_pow]

theorem openaiRetryAux_exhaust (api : Nat → CallOutcome) (rd : Nat) :
    ∀ (remaining attempt : Nat),
    (∀ i, i < remaining → api (attempt + i) = .rateLimitErr) →
    openaiRetryAux api rd attempt remaining
      = (none, (List.range remaining).map (fun i => rd * 2 ^ (attempt + i))) := by
  intro remaining
  induction remaining with
  | zero => intro attempt h; simp [openaiRetryAux]
  | succ m ih =>
    intro attempt h
    have h0 : api attempt = .rateLimitErr := by
      simpa using h 0 (by omega)
    have hrest := ih (attempt + 1) (fun i hi => by
      have hh := h (i + 1) (by omega)
      rw [show attempt + (i + 1) = attempt + 1 + i from by omega] at hh
      exact hh)
    simp only [openaiRetryAux]
    rw [h0]
    simp only [hrest, range_succ_pow]

/-- C4: the OpenAI-style adapter retries only on rate-limit failures,
with a base delay of 5 that doubles on each attempt and the attempt
count capped at 3: K rate-limit failures (K below the cap) followed by
a success return the successful reply after backoffs 5·2⁰, …, 5·2^(K−1);
a non-rate-limit failure returns `none` at once with no further
attempts; and three rate-limit failures exhaust the cap and return
`none` (no exception) after backoffs 5, 10, 20. -/
theorem C4_openai_retry_behavior (api : Nat → CallOutcome) :
    (∀ K t, K < 3 → (∀ i, i < K → api i = .rateLimitErr) →
      api K = .success t →
      call_openai_gpt4v api
        = (some t, (List.range K).map (fun i => 5 * 2 ^ i))) ∧
    (∀ K, K < 3 → (∀ i, i < K → api i = .rateLimitErr) →
      api K = .otherErr →
      call_openai_gpt4v api
        = (none, (List.range K).map (fun i => 5 * 2 ^ i))) ∧
    ((∀ i, i < 3 → api i = .rateLimitErr) →
      call_openai_gpt4v api = (none, [5, 10, 20])) := by
  refine ⟨fun K t hK hpre hs => ?_, fun K hK hpre hs => ?_, fun hpre => ?_⟩
  · have h := openaiRetryAux_success api 5 K 0 3 t hK
      (fun i hi => by simpa using hpre i hi) (by simpa using hs)
    rw [call_openai_gpt4v, h]
    simp
  · have h := openaiRetryAux_otherErr api 5 K 0 3 hK
      (fun i hi => by simpa using hpre i hi) (by simpa using hs)
    rw [call_openai_gpt4v, h]
    simp
  · have h := openaiRetryAux_exhaust api 5 3 0
      (fun i hi => by simpa using hpre i hi)
    rw [call_openai_gpt4v, h]
    decide

/-- Closed instantiation of C4: one rate-limit failure, then success —
the adapter returns the reply after a single backoff of 5. -/
theorem C4_openai_retry_behavior_witness :
    call_openai_gpt4v
        (fun i => if i = 0 then .rateLimitErr else .success ("ok".toList))
      = (some ("ok".toList), [5]) := by
  have h := (C4_openai_retry_behavior
      (fun i => if i = 0 then .rateLimitErr else .success ("ok".toList))).1
    1 ("ok".toList) (by omega)
    (fun i hi => by
      have hi0 : i = 0 := by omega
      subst hi0
      rfl)
    rfl
  rw [h]
  decide

/-! ### Orchestrator characterization (C2, C3, C7) -/

theorem flatMap_skip {α β : Type} (l : List α) (p : α → Bool)
    (f : α → List β) :
    (l.flatMap (fun x => if p x then [] else f x))
      = (l.filter (fun x => !p x)).flatMap f := by
  induction l with
  | nil => rfl
  | cons x xs ih =>
    cases hx : p x <;> simp [List.flatMap_cons, List.filter_cons, hx, ih]

theorem run_multiple_assessments_eq (ai_services : List ProviderCfg)
    (temperatures : List String) (repeats : Nat)
    (selected_services selected_models : Option (List String))
    (runner : String → String → String → Nat → Bool)
    (num_interfaces : Nat) (timestamp output_dir : String) :
    run_multiple_assessments ai_services temperatures repeats
        selected_services selected_models runner num_interfaces
        timestamp output_dir
      = (filteredTuples ai_services temperatures repeats
          selected_services selected_models).flatMap
          (fun t => tupleEvents runner num_interfaces timestamp output_dir
            t.1 t.2.1 t.2.2.1 t.2.2.2) := by
  rw [run_multiple_assessments, filteredTuples, flatMap_skip]
  simp only [flatMap_skip, List.flatMap_assoc, List.flatMap_map]

theorem invokedTuples_append (a b : List SweepEvent) :
    invokedTuples (a ++ b) = invokedTuples a ++ invokedTuples b := by
  simp [invokedTuples]

theorem usageRows_append (a b : List SweepEvent) :
    usageRows (a ++ b) = usageRows a ++ usageRows b := by
  simp [usageRows]

theorem failureLogs_append (a b : List SweepEvent) :
    failureLogs (a ++ b) = failureLogs a ++ failureLogs b := by
  simp [failureLogs]

theorem invokedTuples_tupleEvents
    (runner : String → String → String → Nat → Bool)
    (num_interfaces : Nat) (timestamp output_dir s m tp : String) (r : Nat) :
    invokedTuples (tupleEvents runner num_interfaces timestamp output_dir
        s m tp r)
      = [(s, m, tp, r, output_file output_dir s m tp r timestamp)] := by
  cases hr : runner s m tp r <;> simp [tupleEvents, hr, invokedTuples]

theorem usageRows_tupleEvents
    (runner : String → String → String → Nat → Bool)
    (num_interfaces : Nat) (timestamp output_dir s m tp : String) (r : Nat) :
    usageRows (tupleEvents runner num_interfaces timestamp output_dir
        s m tp r)
      = if runner s m tp r then
          [⟨s, m, tp, r, num_interfaces,
            (tokens_per_interface s).1 * num_interfaces,
            (tokens_per_interface s).2 * num_interfaces⟩]
        else [] := by
  cases hr : runner s m tp r <;>
    simp [tupleEvents, hr, usageRows, estimate_tokens]

theorem failureLogs_tupleEvents
    (runner : String → String → String → Nat → Bool)
    (num_interfaces : Nat) (timestamp output_dir s m tp : String) (r : Nat) :
    failureLogs (tupleEvents runner num_interfaces timestamp output_dir
        s m tp r)
      = if runner s m tp r then [] else [(s, m, tp, r)] := by
  cases hr : runner s m tp r <;> simp [tupleEvents, hr, failureLogs]

theorem invokedTuples_flatMap
    (tuples : List (String × String × String × Nat))
    (runner : String → String → String → Nat → Bool)
    (num_interfaces : Nat) (timestamp output_dir : String) :
    invokedTuples (tuples.flatMap (fun t => tupleEvents runner
        num_interfaces timestamp output_dir t.1 t.2.1 t.2.2.1 t.2.2.2))
      = tuples.map (fun t => (t.1, t.2.1, t.2.2.1, t.2.2.2,
          output_file output_dir t.1 t.2.1 t.2.2.1 t.2.2.2 timestamp)) := by
  induction tuples with
  | nil => rfl
  | cons t ts ih =>
    rw [List.flatMap_cons, invokedTuples_append, invokedTuples_tupleEvents,
      ih, List.map_cons]
    rfl

theorem usageRows_flatMap
    (tuples : List (String × String × String × Nat))
    (runner : String → String → String → Nat → Bool)
    (num_interfaces : Nat) (timestamp output_dir : String) :
    usageRows (tuples.flatMap (fun t => tupleEvents runner
        num_interfaces timestamp output_dir t.1 t.2.1 t.2.2.1 t.2.2.2))
      = (tuples.filter (fun t => runner t.1 t.2.1 t.2.2.1 t.2.2.2)).map
          (fun t => ⟨t.1, t.2.1, t.2.2.1, t.2.2.2, num_interfaces,
            (tokens_per_interface t.1).1 * num_interfaces,
            (tokens_per_interface t.1).2 * num_interfaces⟩) := by
  induction tuples with
  | nil => rfl
  | cons t ts ih =>
    rw [List.flatMap_cons, usageRows_append, usageRows_tupleEvents, ih,
      List.filter_cons]
    cases hr : runner t.1 t.2.1 t.2.2.1 t.2.2.2 <;> simp [hr]

theorem failureLogs_flatMap
    (tuples : List (String × String × String × Nat))
    (runner : String → String → String → Nat → Bool)
    (num_interfaces : Nat) (timestamp output_dir : String) :
    failureLogs (tuples.flatMap (fun t => tupleEvents runner
        num_interfaces timestamp output_dir t.1 t.2.1 t.2.2.1 t.2.2.2))
      = tuples.filter (fun t => !(runner t.1 t.2.1 t.2.2.1 t.2.2.2)) := by
  induction tuples with
  | nil => rfl
  | cons t ts ih =>
    rw [List.flatMap_cons, failureLogs_append, failureLogs_tupleEvents, ih,
      List.filter_cons]
    cases hr : runner t.1 t.2.1 t.2.2.1 t.2.2.2 <;> simp [hr]

theorem filteredTuples_no_filters (ai_services : List ProviderCfg)
    (temperatures : List String) (repeats : Nat) :
    filteredTuples ai_services temperatures repeats none none
      = specTupleOrder ai_services temperatures repeats := by
  simp [filteredTuples, specTupleOrder, skipByFilter]

theorem len_flatMap {α β : Type} (l : List α) (f : α → List β) :
    (l.flatMap f).length = (l.map (fun a => (f a).length)).sum := by
  induction l with
  | nil => rfl
  | cons x xs ih => simp [List.flatMap_cons, ih]

theorem sum_map_const {α : Type} (l : List α) (c : Nat) :
    (l.map (fun _ => c)).sum = l.length * c := by
  induction l with
  | nil => simp
  | cons x xs ih => simp [ih]; ring

theorem sum_map_mul_const {α : Type} (l : List α) (f : α → Nat) (c : Nat) :
    (l.map (fun a => f a * c)).sum = (l.map f).sum * c := by
  induction l with
  | nil => simp
  | cons x xs ih => simp [ih]; ring

theorem specTupleOrder_length (ai_services : List ProviderCfg)
    (temperatures : List String) (repeats : Nat) :
    (specTupleOrder ai_services temperatures repeats).length
      = (ai_services.map (fun svc => svc.models.length)).sum
          * temperatures.length * repeats := by
  rw [specTupleOrder, len_flatMap]
  have hsvc : ∀ svc : ProviderCfg,
      ((svc.models.flatMap (fun model_name =>
        temperatures.flatMap (fun temperature =>
          (List.range repeats).map (fun r =>
            (svc.name, model_name, temperature, r + 1))))).length)
        = svc.models.length * (temperatures.length * repeats) := by
    intro svc
    rw [len_flatMap]
    have hm : ∀ model_name : String,
        ((temperatures.flatMap (fun temperature =>
          (List.range repeats).map (fun r =>
            (svc.name, model_name, temperature, r + 1)))).length)
          = temperatures.length * repeats := by
      intro model_name
      rw [len_flatMap]
      have ht : (temperatures.map (fun temperature =>
          ((List.range repeats).map (fun r =>
            (svc.name, model_name, temperature, r + 1))).length))
          = temperatures.map (fun _ => repeats) := by
        apply List.map_congr_left
        intro t _
        simp
      rw [ht, sum_map_const]
    have hmm : (svc.models.map (fun model_name =>
        (temperatures.flatMap (fun temperature =>
          (List.range repeats).map (fun r =>
            (svc.name, model_name, temperature, r + 1)))).length))
        = svc.models.map (fun _ => temperatures.length * repeats) := by
      apply List.map_congr_left
      intro m _
      exact hm m
    rw [hmm, sum_map_const]
  have hall : (ai_services.map (fun svc =>
      (svc.models.flatMap (fun model_name =>
        temperatures.flatMap (fun temperature =>
          (List.range repeats).map (fun r =>
            (svc.name, model_name, temperature, r + 1))))).length))
      = ai_services.map (fun svc =>
          svc.models.length * (temperatures.length * repeats)) := by
    apply List.map_congr_left
    intro svc _
    exact hsvc svc
  rw [hall, sum_map_mul_const ai_services (fun svc => svc.models.length)
    (temperatures.length * repeats), ← Nat.mul_assoc]

/-- C3: with no provider/model filters, the Sweep Orchestrator invokes
the external Assessment Runner once per tuple, in the deterministic
nested order providers, then that provider's models, then temperatures,
then repetitions 1..R — so exactly (Σ models per provider) × T × R
invocations — and gives each tuple its own sink path built from
provider, model, temperature, repetition and the sweep timestamp. -/
theorem C3_sweep_enumeration_order_count (ai_services : List ProviderCfg)
    (temperatures : List String) (repeats : Nat)
    (runner : String → String → String → Nat → Bool)
    (num_interfaces : Nat) (timestamp output_dir : String) :
    invokedTuples (run_multiple_assessments ai_services temperatures
        repeats none none runner num_interfaces timestamp output_dir)
      = (specTupleOrder ai_services temperatures repeats).map
          (fun t => (t.1, t.2.1, t.2.2.1, t.2.2.2,
            output_file output_dir t.1 t.2.1 t.2.2.1 t.2.2.2 timestamp)) ∧
    (invokedTuples (run_multiple_assessments ai_services temperatures
        repeats none none runner num_interfaces timestamp output_dir)).length
      = (ai_services.map (fun svc => svc.models.length)).sum
          * temperatures.length * repeats := by
  have heq : invokedTuples (run_multiple_assessments ai_services
      temperatures repeats none none runner num_interfaces timestamp
      output_dir)
      = (specTupleOrder ai_services temperatures repeats).map
          (fun t => (t.1, t.2.1, t.2.2.1, t.2.2.2,
            output_file output_dir t.1 t.2.1 t.2.2.1 t.2.2.2 timestamp)) := by
    rw [run_multiple_assessments_eq, invokedTuples_flatMap,
      filteredTuples_no_filters]
  refine ⟨heq, ?_⟩
  rw [heq, List.length_map, specTupleOrder_length]

/-! ### C2 — when the usage ledger row is written -/

/-- C2 counterexample: with one provider, one model, one temperature
and one repetition, a failing external run leaves the usage ledger
empty even though the tuple was invoked — so no UsageRecord is
appended "before invoking ... regardless of whether the tuple
subsequently succeeds or fails". -/
theorem C2_usage_record_on_failure_cx :
    invokedTuples (run_multiple_assessments [⟨"openai", ["gpt-4o"]⟩]
        ["0.0"] 1 none none (fun _ _ _ _ => false) 5 "ts" "results") ≠ [] ∧
    usageRows (run_multiple_assessments [⟨"openai", ["gpt-4o"]⟩]
        ["0.0"] 1 none none (fun _ _ _ _ => false) 5 "ts" "results") = [] := by
  constructor
  · decide
  · decide

/-- C2 (amended): the usage ledger row for a tuple is appended *after*
that tuple's invocation and only when the invocation succeeds — a
failed tuple appends nothing — and each appended row's estimated token
counts equal the per-provider per-artifact heuristic multiplied by the
artifact count. -/
theorem C2_usage_record_after_success (ai_services : List ProviderCfg)
    (temperatures : List String) (repeats : Nat)
    (runner : String → String → String → Nat → Bool)
    (num_interfaces : Nat) (timestamp output_dir : String) :
    usageRows (run_multiple_assessments ai_services temperatures repeats
        none none runner num_interfaces timestamp output_dir)
      = ((specTupleOrder ai_services temperatures repeats).filter
          (fun t => runner t.1 t.2.1 t.2.2.1 t.2.2.2)).map
          (fun t => ⟨t.1, t.2.1, t.2.2.1, t.2.2.2, num_interfaces,
            (tokens_per_interface t.1).1 * num_interfaces,
            (tokens_per_interface t.1).2 * num_interfaces⟩) ∧
    (∀ s m tp r, runner s m tp r = true →
      tupleEvents runner num_interfaces timestamp output_dir s m tp r
        = [.invoked s m tp r (output_file output_dir s m tp r timestamp),
           .usageAppended ⟨s, m, tp, r, num_interfaces,
             (tokens_per_interface s).1 * num_interfaces,
             (tokens_per_interface s).2 * num_interfaces⟩]) ∧
    (∀ s m tp r, runner s m tp r = false →
      tupleEvents runner num_interfaces timestamp output_dir s m tp r
        = [.invoked s m tp r (output_file output_dir s m tp r timestamp),
           .failureLogged s m tp r]) := by
  refine ⟨?_, fun s m tp r hr => ?_, fun s m tp r hr => ?_⟩
  · rw [run_multiple_assessments_eq, filteredTuples_no_filters,
      usageRows_flatMap]
  · simp [tupleEvents, hr, estimate_tokens]
  · simp [tupleEvents, hr, estimate_tokens]

/-- Closed instantiation of the amended C2: a succeeding tuple appends
its estimate row after the invocation; a failing tuple logs instead. -/
theorem C2_usage_record_after_success_witness :
    usageRows (run_multiple_assessments [⟨"anthropic", ["claude-3"]⟩]
        ["0.5"] 1 none none (fun _ _ _ _ => true) 4 "ts" "out")
      = [⟨"anthropic", "claude-3", "0.5", 1, 4, 3200, 2400⟩] ∧
    tupleEvents (fun _ _ _ _ => true) 4 "ts" "out"
        "anthropic" "claude-3" "0.5" 1
      = [.invoked "anthropic" "claude-3" "0.5" 1
           (output_file "out" "anthropic" "claude-3" "0.5" 1 "ts"),
         .usageAppended ⟨"anthropic", "claude-3", "0.5", 1, 4, 3200, 2400⟩] := by
  have h := C2_usage_record_after_success [⟨"anthropic", ["claude-3"]⟩]
    ["0.5"] 1 (fun _ _ _ _ => true) 4 "ts" "out"
  refine ⟨?_, ?_⟩
  · rw [h.1]; decide
  · rw [h.2.1 "anthropic" "claude-3" "0.5" 1 rfl]; decide

/-! ### C7 — per-tuple failure containment and exit codes -/

/-- C7: the set and order of runner invocations is independent of
which tuples fail (a failing tuple is logged and the sweep proceeds),
every failing filtered tuple gets a logged failure, and the process
exit code is 0 whenever the configuration loads — even if every tuple
fails — and 1 exactly when the configuration cannot be read. -/
theorem C7_sweep_failure_containment (ai_services : List ProviderCfg)
    (temperatures : List String) (repeats : Nat)
    (selected_services selected_models : Option (List String))
    (runner : String → String → String → Nat → Bool)
    (num_interfaces : Nat) (timestamp output_dir : String) :
    invokedTuples (run_multiple_assessments ai_services temperatures
        repeats selected_services selected_models runner num_interfaces
        timestamp output_dir)
      = invokedTuples (run_multiple_assessments ai_services temperatures
          repeats selected_services selected_models (fun _ _ _ _ => true)
          num_interfaces timestamp output_dir) ∧
    failureLogs (run_multiple_assessments ai_services temperatures
        repeats selected_services selected_models runner num_interfaces
        timestamp output_dir)
      = (filteredTuples ai_services temperatures repeats
          selected_services selected_models).filter
          (fun t => !(runner t.1 t.2.1 t.2.2.1 t.2.2.2)) ∧
    (sweep_main (some ai_services) temperatures repeats
        selected_services selected_models runner num_interfaces
        timestamp output_dir).1 = 0 ∧
    (sweep_main none temperatures repeats selected_services
        selected_models runner num_interfaces timestamp output_dir).1 = 1 := by
  refine ⟨?_, ?_, rfl, rfl⟩
  · rw [run_multiple_assessments_eq, run_multiple_assessments_eq,
      invokedTuples_flatMap, invokedTuples_flatMap]
  · rw [run_multiple_assessments_eq, failureLogs_flatMap]

/-! ### C8, C10 — the result recorder -/

theorem objValued_iff (o : Option Json) :
    objValued o = true ↔ (o = none ∨ ∃ sub, o = some (.obj sub)) := by
  cases o with
  | none => simp [objValued]
  | some j => cases j <;> simp [objValued]

theorem getDefaultObj_isSome (fields : List (String × Json)) (k : String)
    (h : objValued (fields.lookup k) = true) :
    ∃ sub, getDefaultObj (.obj fields) k = some sub := by
  rcases (objValued_iff _).1 h with hnone | ⟨sub, hsub⟩
  · exact ⟨[], by simp [getDefaultObj, hnone]⟩
  · exact ⟨sub, by simp [getDefaultObj, hsub]⟩

theorem flatten_result_isSome (r : Json)
    (h : wellFormedResult r = true) :
    ∃ row, flatten_result r = some row := by
  cases r with
  | obj fields =>
    rw [wellFormedResult, Bool.and_eq_true] at h
    obtain ⟨m, hm⟩ := getDefaultObj_isSome fields "metadata" h.1
    obtain ⟨a, ha⟩ := getDefaultObj_isSome fields "assessment" h.2
    exact ⟨_, by rw [flatten_result, hm, ha]⟩
  | str s => simp [wellFormedResult] at h
  | num n => simp [wellFormedResult] at h
  | null => simp [wellFormedResult] at h
  | arr x => simp [wellFormedResult] at h

theorem flatten_result_shape (r : Json) (row : List (String × Json))
    (h : flatten_result r = some row) :
    ∃ (mfields afields : List (String × Json)) (e : Json),
      row = mfields.map (fun p => ("metadata_" ++ p.1, p.2))
        ++ afields.map (fun p => ("score_" ++ p.1, p.2))
        ++ [("explanation", e)] := by
  rw [flatten_result] at h
  cases hm : getDefaultObj r "metadata" with
  | none => rw [hm] at h; cases h
  | some mfields =>
    rw [hm] at h
    cases ha : getDefaultObj r "assessment" with
    | none => rw [ha] at h; cases h
    | some afields =>
      rw [ha] at h
      simp only [Option.some.injEq] at h
      exact ⟨mfields, afields, getExplanation r, h.symm⟩

theorem mapM_flatten_exists (results : List Json)
    (h : ∀ r ∈ results, wellFormedResult r = true) :
    ∃ frows, mapOption flatten_result results = some frows ∧
      frows.length = results.length ∧
      ∀ row ∈ frows, ∃ r ∈ results, flatten_result r = some row := by
  induction results with
  | nil => exact ⟨[], rfl, rfl, by simp⟩
  | cons r rs ih =>
    obtain ⟨row, hrow⟩ := flatten_result_isSome r (h r (by simp))
    obtain ⟨frows, hfr, hlen, hmem⟩ := ih (fun x hx => h x (by simp [hx]))
    refine ⟨row :: frows, ?_, by simp [hlen], ?_⟩
    · simp [mapOption, hrow, hfr]
    · intro row' hr'
      rcases List.mem_cons.1 hr' with h1 | h2
      · exact ⟨r, by simp, h1 ▸ hrow⟩
      · obtain ⟨x, hx, hfx⟩ := hmem row' h2
        exact ⟨x, by simp [hx], hfx⟩

theorem addCols_cons (cols : List String) (p : String × Json)
    (ps : List (String × Json)) :
    addCols cols (p :: ps)
      = addCols (if cols.contains p.1 then cols else cols ++ [p.1]) ps := rfl

theorem mem_addCols (row : List (String × Json)) (cols : List String)
    (c : String) :
    c ∈ addCols cols row ↔ c ∈ cols ∨ c ∈ row.map Prod.fst := by
  induction row generalizing cols with
  | nil => simp [addCols]
  | cons p ps ih =>
    rw [addCols_cons, ih]
    by_cases hc : cols.contains p.1 = true
    · have hp : p.1 ∈ cols := by simpa using hc
      rw [if_pos hc]
      simp only [List.map_cons, List.mem_cons]
      constructor
      · rintro (h | h)
        · exact Or.inl h
        · exact Or.inr (Or.inr h)
      · rintro (h | h | h)
        · exact Or.inl h
        · exact Or.inl (h ▸ hp)
        · exact Or.inr h
    · rw [if_neg hc]
      simp only [List.mem_append, List.mem_singleton, List.map_cons,
        List.mem_cons]
      tauto

theorem mem_dfColumns (rows : List (List (String × Json))) (c : String) :
    c ∈ dfColumns rows ↔ ∃ row ∈ rows, c ∈ row.map Prod.fst := by
  have key : ∀ (rs : List (List (String × Json))) (cols : List String),
      c ∈ rs.foldl addCols cols
        ↔ c ∈ cols ∨ ∃ row ∈ rs, c ∈ row.map Prod.fst := by
    intro rs
    induction rs with
    | nil => intro cols; simp
    | cons row rs ih =>
      intro cols
      rw [List.foldl_cons, ih, mem_addCols]
      constructor
      · rintro ((h | h) | ⟨r, hr, hcr⟩)
        · exact Or.inl h
        · exact Or.inr ⟨row, by simp, h⟩
        · exact Or.inr ⟨r, by simp [hr], hcr⟩
      · rintro (h | ⟨r, hr, hcr⟩)
        · exact Or.inl (Or.inl h)
        · rcases List.mem_cons.1 hr with h1 | h2
          · exact Or.inl (Or.inr (h1 ▸ hcr))
          · exact Or.inr ⟨r, h2, hcr⟩
  rw [dfColumns, key]
  simp

theorem lookup_eq_none_iff (l : List (String × Json)) (c : String) :
    l.lookup c = none ↔ c ∉ l.map Prod.fst := by
  induction l with
  | nil => simp
  | cons p ps ih =>
    rw [lookup_cons]
    cases hb : c == p.1
    · have hne : ¬ c = p.1 := by simpa using hb
      simp [ih, hne]
    · have heq : c = p.1 := by simpa using hb
      simp [heq]

/-- C8: on any non-empty, well-shaped batch — including one whose
results carry different score key sets — the Result Recorder writes a
table whose column set is exactly the union of all rows' keys
(metadata columns, score columns and the explanation column), aligns
every row to that header with absent keys as empty cells, and returns
normally. -/
theorem C8_recorder_union_columns (results : List Json)
    (output_path : String) (fs : List (String × CsvTable))
    (hne : results ≠ [])
    (hwf : ∀ r ∈ results, wellFormedResult r = true) :
    ∃ frows, mapOption flatten_result results = some frows ∧
      save_results_to_csv results output_path fs
        = some ((output_path, toCsvTable frows) :: fs) ∧
      (∀ c, c ∈ (toCsvTable frows).header
        ↔ ∃ row ∈ frows, c ∈ row.map Prod.fst) ∧
      (toCsvTable frows).rows
        = frows.map (fun row =>
            (toCsvTable frows).header.map (fun c => row.lookup c)) ∧
      (∀ row ∈ frows, ∀ c, row.lookup c = none ↔ c ∉ row.map Prod.fst) ∧
      (∀ row ∈ frows, ∃ (mfields afields : List (String × Json)) (e : Json),
        row = mfields.map (fun p => ("metadata_" ++ p.1, p.2))
          ++ afields.map (fun p => ("score_" ++ p.1, p.2))
          ++ [("explanation", e)]) := by
  obtain ⟨frows, hmapM, hlen, hmem⟩ := mapM_flatten_exists results hwf
  refine ⟨frows, hmapM, ?_, ?_, rfl, ?_, ?_⟩
  · rw [save_results_to_csv, if_neg (by simpa using hne), hmapM]
  · intro c
    exact mem_dfColumns frows c
  · intro row _ c
    exact lookup_eq_none_iff row c
  · intro row hrow
    obtain ⟨r, _, hfr⟩ := hmem row hrow
    exact flatten_result_shape r row hfr

/-- Closed instantiation of C8: two results with different score key
sets still yield one well-formed table. -/
theorem C8_recorder_union_columns_witness :
    ∃ frows,
      mapOption flatten_result
        [Json.obj [("assessment", .obj [("supportive", .num 5)]),
           ("explanation", .str "a")],
         Json.obj [("assessment", .obj [("efficient", .num 3)]),
           ("explanation", .str "b")]] = some frows ∧
      save_results_to_csv
          [Json.obj [("assessment", .obj [("supportive", .num 5)]),
             ("explanation", .str "a")],
           Json.obj [("assessment", .obj [("efficient", .num 3)]),
             ("explanation", .str "b")]] "out.csv" []
        = some (("out.csv", toCsvTable frows) :: []) ∧
      (∀ c, c ∈ (toCsvTable frows).header
        ↔ ∃ row ∈ frows, c ∈ row.map Prod.fst) ∧
      (toCsvTable frows).rows
        = frows.map (fun row =>
            (toCsvTable frows).header.map (fun c => row.lookup c)) ∧
      (∀ row ∈ frows, ∀ c, row.lookup c = none ↔ c ∉ row.map Prod.fst) ∧
      (∀ row ∈ frows, ∃ (mfields afields : List (String × Json)) (e : Json),
        row = mfields.map (fun p => ("metadata_" ++ p.1, p.2))
          ++ afields.map (fun p => ("score_" ++ p.1, p.2))
          ++ [("explanation", e)]) :=
  C8_recorder_union_columns
    [Json.obj [("assessment", .obj [("supportive", .num 5)]),
       ("explanation", .str "a")],
     Json.obj [("assessment", .obj [("efficient", .num 3)]),
       ("explanation", .str "b")]] "out.csv" []
    (by simp)
    (by
      intro r hr
      rcases List.mem_cons.1 hr with h1 | h2
      · subst h1; rfl
      · rcases List.mem_cons.1 h2 with h3 | h4
        · subst h3; rfl
        · cases h4)

/-- C10: an empty accumulated result list makes `save_results_to_csv`
log a warning and return without creating or modifying any output
file — the file-system state is returned unchanged and no error is
raised. -/
theorem C10_empty_results_no_write (output_path : String)
    (fs : List (String × CsvTable)) :
    save_results_to_csv [] output_path fs = some fs := by
  simp [save_results_to_csv]

/-! ### C9 — image encoding and what the payload reveals of the path -/

/-- C9 counterexample, refuting both conjuncts of the claim.
Payload: two image paths with identical bytes but different extensions
produce different outbound payloads — the extension-derived media type
is a path-derived datum in the payload, so the payload does not depend
on the file contents alone.  Logs: an adapter invocation whose image
file is unreadable logs `Image file not found:` followed by the raw
path (`encode_image`'s handler, ui_assessment.py line 53; the
embedding's `.error` value is exactly that logged line), so the full
local path string reaches the adapter's log output. -/
theorem C9_media_type_leak_cx :
    (c9fs "a.png" = c9fs "a.jpg" ∧
     anthropic_content c9fs "pr" (some "a.png")
       ≠ anthropic_content c9fs "pr" (some "a.jpg")) ∧
    (anthropic_content (fun _ => none) "pr" (some "secret/a.png")
       = .error ("Image file not found: " ++ "secret/a.png") ∧
     List.IsInfix ("secret/a.png".toList)
       ("Image file not found: secret/a.png".toList)) := by
  refine ⟨⟨rfl, fun h => ?_⟩, rfl, by decide⟩
  have h1 : anthropic_content c9fs "pr" (some "a.png")
      = .ok [.text "pr", .image "image/png" (b64encode [1, 2, 3])] := rfl
  have h2 : anthropic_content c9fs "pr" (some "a.jpg")
      = .ok [.text "pr", .image "image/jpeg" (b64encode [1, 2, 3])] := rfl
  rw [h1, h2] at h
  simp at h

/-- C9 (amended): `encode_image` depends only on the file's bytes —
identical bytes give identical base64 output whatever the paths — and
the only path-derived datum in the Anthropic payload is the
extension-derived media type: two paths with identical bytes and equal
media type yield identical payloads, the payload consists of exactly
the prompt, the media type and the bytes' base64 (no path string),
and the media type ranges over just the two constants.  For the logs:
the `.error` value is the one logged line in this code path, so a
successful invocation (the `.ok` conjunct) logs nothing at all — no
path information reaches the logs on success — while an unreadable
image file logs exactly `Image file not found:` plus the raw path. -/
theorem C9_payload_content_dependence (fs : String → Option (List Nat))
    (p1 p2 prompt : String) (bytes : List Nat)
    (h1 : fs p1 = some bytes) (h2 : fs p2 = some bytes) :
    encode_image fs p1 = encode_image fs p2 ∧
    encode_image fs p1 = .ok (b64encode bytes) ∧
    (get_media_type p1 = get_media_type p2 →
      anthropic_content fs prompt (some p1)
        = anthropic_content fs prompt (some p2)) ∧
    anthropic_content fs prompt (some p1)
      = .ok [.text prompt, .image (get_media_type p1) (b64encode bytes)] ∧
    (get_media_type p1 = "image/png" ∨ get_media_type p1 = "image/jpeg") ∧
    (∀ p : String, fs p = none →
      anthropic_content fs prompt (some p)
        = .error ("Image file not found: " ++ p)) := by
  refine ⟨?_, ?_, fun hmt => ?_, ?_, ?_, fun p hp => ?_⟩
  · rw [encode_image, encode_image, h1, h2]
  · rw [encode_image, h1]
  · simp only [anthropic_content, encode_image, h1, h2, hmt]
  · simp only [anthropic_content, encode_image, h1]
  · rw [get_media_type]
    by_cases hpng : lowerEndsWith p1 ".png" = true
    · rw [if_pos hpng]
      exact Or.inl rfl
    · rw [if_neg hpng]
      by_cases hjpg : (lowerEndsWith p1 ".jpg"
          || lowerEndsWith p1 ".jpeg") = true
      · rw [if_pos hjpg]
        exact Or.inr rfl
      · rw [if_neg hjpg]
        exact Or.inr rfl
  · simp only [anthropic_content, encode_image, hp]

/-- Closed instantiation of the amended C9: two different paths with
the same bytes and the same extension give byte-identical encodings
and payloads, and an invocation on a path with no file logs the
missing-file line carrying that path. -/
theorem C9_payload_content_dependence_witness :
    encode_image (fun p => if p = "x/b.png" then some [7, 8]
        else if p = "y/c.png" then some [7, 8] else none) "x/b.png"
      = encode_image (fun p => if p = "x/b.png" then some [7, 8]
          else if p = "y/c.png" then some [7, 8] else none) "y/c.png" ∧
    anthropic_content (fun p => if p = "x/b.png" then some [7, 8]
        else if p = "y/c.png" then some [7, 8] else none) "pr"
        (some "x/b.png")
      = anthropic_content (fun p => if p = "x/b.png" then some [7, 8]
          else if p = "y/c.png" then some [7, 8] else none) "pr"
          (some "y/c.png") ∧
    anthropic_content (fun p => if p = "x/b.png" then some [7, 8]
        else if p = "y/c.png" then some [7, 8] else none) "pr"
        (some "m/z.jpg")
      = .error ("Image file not found: " ++ "m/z.jpg") := by
  have h := C9_payload_content_dependence
    (fun p => if p = "x/b.png" then some [7, 8]
      else if p = "y/c.png" then some [7, 8] else none)
    "x/b.png" "y/c.png" "pr" [7, 8] rfl rfl
  exact ⟨h.1, h.2.2.1 (by decide), h.2.2.2.2.2 "m/z.jpg" (by decide)⟩

end UIAssess
